import Mathlib

/-
Verification of the suica-viewer fare-card reader.

The development shallowly embeds the Python sources:
  * `utils.py`    — packed date/time codecs and rendering helpers,
  * `cli.py`      — `RemoteCardReader` (chunked encrypted block reads) and the
                    transaction-history decoding loop (shared with `gui.py`),
  * `auth_client.py` — `FelicaRemoteClient` protocol state machine,
  * `station_code_lookup.py` — hex-code normalisation and station lookup.

Bytes are modelled as `Nat` values (a Python `bytes` object guarantees each
element is `< 256`); byte strings are `List Nat`.  The remote authority and
the card transport are modelled as oracles: the authority as a script (a list
of decoded JSON responses consumed one POST at a time) and the card as a
function from frame and timeout to response bytes.  Fallible Python code
(raised exceptions) is modelled with `Except`.
-/

namespace SuicaViewer

/-! ## Byte-level helpers (Python built-ins used by the sources) -/

/-- Python `int.from_bytes(l, byteorder="big")`. -/
def from_bytes_be (l : List Nat) : Nat :=
  l.foldl (fun acc b => acc * 256 + b) 0

/-- Python `int.from_bytes(l, byteorder="little")`. -/
def from_bytes_le (l : List Nat) : Nat :=
  l.reverse.foldl (fun acc b => acc * 256 + b) 0

/-- Upper-case hexadecimal digit character for a nibble. -/
def hexDigitU (n : Nat) : Char :=
  if n < 10 then Char.ofNat (48 + n) else Char.ofNat (55 + n)

/-- Two-digit upper-case hex rendering of one byte (`f"{b:02X}"`, also the
upper-cased form of `bytes.hex()` for a single byte `< 256`). -/
def byteToHexU (b : Nat) : String :=
  String.mk [hexDigitU (b / 16 % 16), hexDigitU (b % 16)]

/-- Python `f"{n:X}"`: minimal-width upper-case hex of a natural number.
Structural fuel recursion (`n + 1` is always enough fuel). -/
def natToHexCore : Nat → Nat → List Char
  | 0, _ => []
  | fuel + 1, n =>
    if n < 16 then [hexDigitU n]
    else natToHexCore fuel (n / 16) ++ [hexDigitU (n % 16)]

def natToHexUpper (n : Nat) : String :=
  String.mk (natToHexCore (n + 1) n)

/-- Python `f"{n:0wd}"`: decimal rendering of `n` left-padded with zeros to width `w`. -/
def decPad (w n : Nat) : String :=
  String.mk (List.replicate (w - (Nat.repr n).length) '0') ++ Nat.repr n

/-- ASCII model of Python `str.upper` on one character. -/
def charUpper (c : Char) : Char :=
  if 'a' ≤ c ∧ c ≤ 'z' then Char.ofNat (c.toNat - 32) else c

/-- ASCII model of Python `str.upper`. -/
def strUpper (s : String) : String :=
  String.mk (s.data.map charUpper)

/-- Model of Python `str.strip`: drop whitespace from both ends. -/
def strStrip (s : String) : String :=
  String.mk ((((s.data.dropWhile Char.isWhitespace).reverse).dropWhile
    Char.isWhitespace).reverse)

/-- One nibble of a hex string (`bytes.fromhex` digit). -/
def hexNibble (c : Char) : Option Nat :=
  if '0' ≤ c ∧ c ≤ '9' then some (c.toNat - 48)
  else if 'a' ≤ c ∧ c ≤ 'f' then some (c.toNat - 87)
  else if 'A' ≤ c ∧ c ≤ 'F' then some (c.toNat - 55)
  else none

/-- Python `bytes.fromhex` on a character list: pairs of hex digits, `none` on an odd
length or a non-hex character (Python raises `ValueError`). -/
def bytesFromHexList : List Char → Option (List Nat)
  | [] => some []
  | [_] => none
  | c1 :: c2 :: rest =>
    match hexNibble c1, hexNibble c2, bytesFromHexList rest with
    | some h, some l, some r => some ((h * 16 + l) :: r)
    | _, _, _ => none

def bytesFromHex (s : String) : Option (List Nat) :=
  bytesFromHexList s.data

/-! ## `utils.py` -/

/-- Source `utils.int_to_date`: unpack a 16-bit packed date. -/
def int_to_date (value : Nat) : Nat × Nat × Nat :=
  (value >>> 9, (value >>> 5) &&& 0x0F, value &&& 0x1F)

/-- Source `utils.int_to_time`: unpack a 16-bit packed time. -/
def int_to_time (value : Nat) : Nat × Nat × Nat :=
  (value >>> 11, (value >>> 5) &&& 0x3F, (value &&& 0x1F) * 2)

/-- Modelled from the spec: the 16-bit packed-date encoding
`(year << 9) | (month << 5) | day`.  No encoder exists in the source; this is
the packing expression named by the spec's round-trip property. -/
def date_to_int (year month day : Nat) : Nat :=
  (year <<< 9) ||| (month <<< 5) ||| day

/-- Source `utils.idi_bytes_to_str`: render an 8-byte IDi.  Python raises
`ValueError` when fewer than 8 bytes are supplied, modelled as `.error`. -/
def idi_bytes_to_str (idi_bytes : List Nat) : Except String String :=
  if idi_bytes.length < 8 then .error "idi_bytes must be 8 bytes."
  else
    let data := idi_bytes
    let head := String.join ((data.take 4).map byteToHexU)
    let v := (data.getD 4 0) <<< 8 ||| data.getD 5 0
    let year := (v >>> 9) &&& 0x3F
    let month := (v >>> 5) &&& 0x0F
    let day := v &&& 0x1F
    let yy := year % 100
    let date_part := decPad 2 yy ++ decPad 2 month ++ decPad 2 day
    let tail_val := from_bytes_be ((data.drop 6).take 2)
    let tail := decPad 5 tail_val
    .ok (head ++ date_part ++ tail)

/-- Modelled from the spec: the same rendering but with the year taken as
`value >> 9` per the shared packed-date convention (the spec's claim), without
the extra 6-bit mask that the source applies. -/
def idi_bytes_to_str_spec (idi_bytes : List Nat) : Except String String :=
  if idi_bytes.length < 8 then .error "idi_bytes must be 8 bytes."
  else
    let data := idi_bytes
    let head := String.join ((data.take 4).map byteToHexU)
    let v := (data.getD 4 0) <<< 8 ||| data.getD 5 0
    let year := v >>> 9
    let month := (v >>> 5) &&& 0x0F
    let day := v &&& 0x1F
    let yy := year % 100
    let date_part := decPad 2 yy ++ decPad 2 month ++ decPad 2 day
    let tail_val := from_bytes_be ((data.drop 6).take 2)
    let tail := decPad 5 tail_val
    .ok (head ++ date_part ++ tail)

/-! ## `cli.py` — `RemoteCardReader` -/

def READ_COMMAND_CODE : Nat := 0x14
def DATA_BLOCK_SIZE : Nat := 16
def MAX_BLOCKS_PER_REQUEST : Nat := 12

/-- The exceptions raised by `RemoteCardReader`: `ValueError` from address
validation, `RuntimeError` for malformed responses, and the card-status
`RuntimeError` (which carries the 16-bit status code in its message). -/
inductive ReaderError where
  | valueError (msg : String)
  | runtimeError (msg : String)
  | cardError (status_code : Nat)
deriving DecidableEq

/-- Source `RemoteCardReader._elements_to_bytes`: validate each `(serviceIndex,
blockIndex)` pair and encode it as the 2-byte wire element.  Python `int`
can be negative, hence `Int` inputs. -/
def elements_to_bytes : List (Int × Int) → Except ReaderError (List Nat)
  | [] => .ok []
  | (service_index, block_number) :: rest =>
    if ¬ (0 ≤ service_index ∧ service_index < 16) then
      .error (.valueError "サービスインデックスは 0 から 15 の範囲である必要があります。")
    else if ¬ (0 ≤ block_number ∧ block_number < 256) then
      .error (.valueError "ブロック番号は 0 から 255 の範囲である必要があります。")
    else
      match elements_to_bytes rest with
      | .error e => .error e
      | .ok tail =>
        .ok ((0x80 ||| service_index.toNat) :: (block_number.toNat &&& 0xFF) :: tail)

/-- The response-validation body of `RemoteCardReader._read_elements` (the
code after the `encryption_exchange` call): check length, card status pair,
echoed block count and payload length, then slice into 16-byte blocks. -/
def validate_read_response (expected_blocks : Nat) (response : List Nat) :
    Except ReaderError (List (List Nat)) :=
  if response.length < 3 then
    .error (.runtimeError "リモートサーバーからの応答が不正です。")
  else
    let status_flag1 := response.getD 0 0
    let status_flag2 := response.getD 1 0
    if status_flag1 ≠ 0 then
      .error (.cardError ((status_flag1 <<< 8) ||| status_flag2))
    else
      let block_count := response.getD 2 0
      if block_count ≠ expected_blocks then
        .error (.runtimeError "取得したブロック数が一致しません。")
      else
        let block_payload := response.drop 3
        let expected_length := expected_blocks * DATA_BLOCK_SIZE
        if block_payload.length < expected_length then
          .error (.runtimeError "ブロックデータの長さが不正です。")
        else
          let bp := block_payload.take expected_length
          .ok ((List.range expected_blocks).map fun i =>
            (bp.drop (i * DATA_BLOCK_SIZE)).take DATA_BLOCK_SIZE)

/-- Source `RemoteCardReader._read_elements`.  The client's `encryption_exchange`
is abstracted as an oracle `exch` from command code and payload bytes to
response bytes.  The second component counts the `encryption_exchange`
calls performed (0 when address validation fails before the call, 1
otherwise). -/
def read_elements (exch : Nat → List Nat → List Nat)
    (elements : List (Int × Int)) :
    Except ReaderError (List (List Nat)) × Nat :=
  match elements_to_bytes elements with
  | .error e => (.error e, 0)
  | .ok encoded =>
    let payload := elements.length :: encoded
    let response := exch READ_COMMAND_CODE payload
    (validate_read_response elements.length response, 1)

/-- Source `RemoteCardReader.read_blocks`: split the index list into chunks of at
most 12, read each chunk through `_read_elements`, concatenate.  The second
component counts the `encryption_exchange` calls performed before returning
or raising. -/
def read_blocks (exch : Nat → List Nat → List Nat) (service_index : Int) :
    List Int → Except ReaderError (List (List Nat)) × Nat
  | [] => (.ok [], 0)
  | idx :: rest =>
    let chunk := (idx :: rest).take MAX_BLOCKS_PER_REQUEST
    match read_elements exch (chunk.map fun block_index => (service_index, block_index)) with
    | (.error e, n) => (.error e, n)
    | (.ok bs, n) =>
      match read_blocks exch service_index ((idx :: rest).drop MAX_BLOCKS_PER_REQUEST) with
      | (.error e, m) => (.error e, n + m)
      | (.ok bs2, m) => (.ok (bs ++ bs2), n + m)
termination_by idxs => idxs.length
decreasing_by simp [MAX_BLOCKS_PER_REQUEST]; omega

/-- Modelled from the spec: the inverse reading of one 2-byte wire element,
`(0x80 | serviceIndex, blockIndex)` back to the address pair. -/
def wire_element_decode (b1 b2 : Nat) : Nat × Nat :=
  (b1 &&& 0x7F, b2 &&& 0xFF)

/-- Modelled from the spec: a well-behaved remote endpoint for
`encryption_exchange`.  It parses the read payload `[count] + elements`
and answers with status bytes `00 00`, the echoed element count, and the
16-byte block of each addressed element taken from the card image
`card : serviceIndex → blockIndex → block`. -/
def parse_elements : List Nat → List (Nat × Nat)
  | b1 :: b2 :: rest => (b1 &&& 0x7F, b2) :: parse_elements rest
  | _ => []

def good_exch (card : Nat → Nat → List Nat) : Nat → List Nat → List Nat
  | _, [] => []
  | _, count :: rest =>
    0 :: 0 :: count :: (parse_elements rest).flatMap fun e => card e.1 e.2

/-! ## Transaction history decoding (`cli.py` / `gui.py`) -/

/-- One decoded transaction-history entry (the numeric fields extracted by
`SuicaTagReporter.print_transaction_history` /
`SuicaCardDataReader.read_transaction_history`; the reserved transaction
type `0x46` switches the trailing fields from entry/exit stations to a
single packed time). -/
structure TransactionEntry where
  index : Nat
  recorded_by : Nat
  transaction_type : Nat
  pay_type : Nat
  gate_instruction_type : Nat
  recorded_at : Nat
  transaction_time : Option Nat
  entry_station : Option (Nat × Nat)
  exit_station : Option (Nat × Nat)
  balance : Nat
  transaction_number : Nat
deriving DecidableEq

/-- Field extraction for one (non-sentinel) history block. -/
def decode_transaction_entry (index : Nat) (block : List Nat) : TransactionEntry :=
  let recorded_by := block.getD 0 0
  let transaction_type := block.getD 1 0 &&& 0x7F
  let pay_type := block.getD 2 0
  let gate_instruction_type := block.getD 3 0
  let recorded_at := from_bytes_be ((block.drop 4).take 2)
  { index := index
    recorded_by := recorded_by
    transaction_type := transaction_type
    pay_type := pay_type
    gate_instruction_type := gate_instruction_type
    recorded_at := recorded_at
    transaction_time :=
      if transaction_type = 0x46 then some (from_bytes_be ((block.drop 6).take 2))
      else none
    entry_station :=
      if transaction_type = 0x46 then none
      else some (block.getD 6 0, block.getD 7 0)
    exit_station :=
      if transaction_type = 0x46 then none
      else some (block.getD 8 0, block.getD 9 0)
    balance := from_bytes_le ((block.drop 10).take 2)
    transaction_number := from_bytes_be ((block.drop 13).take 2) }

/-- The decoding loop shared by `print_transaction_history` and
`read_transaction_history`: enumerate the blocks, stop at the first block
whose byte 0 (recorded-by) is zero. -/
def read_transaction_history_go (index : Nat) :
    List (List Nat) → List TransactionEntry
  | [] => []
  | block :: rest =>
    if block.getD 0 0 = 0 then []
    else decode_transaction_entry index block ::
      read_transaction_history_go (index + 1) rest

def read_transaction_history (blocks : List (List Nat)) : List TransactionEntry :=
  read_transaction_history_go 0 blocks

/-! ## `station_code_lookup.py` -/

/-- One row of `station_codes.csv` as stored by `_load_data`. -/
structure StationInfo where
  area_code : String
  line_code : String
  station_code : String
  company_name : String
  line_name : String
  station_name : String
  notes : String
deriving DecidableEq

/-- The `str | int` argument accepted by `_normalize_hex_code`. -/
inductive HexCodeInput where
  | int (n : Nat)
  | str (s : String)

/-- Source `StationCodeLookup._normalize_hex_code`: an integer is rendered with
`f"{code:X}"` (no zero padding), a string is upper-cased and stripped. -/
def normalize_hex_code : HexCodeInput → String
  | .int n => natToHexUpper n
  | .str s => strStrip (strUpper s)

/-- Source `StationCodeLookup.get_station_info`.  The two-level dictionary
`_stations_by_line_station` is abstracted as a lookup function from the two
normalised key strings. -/
def get_station_info (tbl : String → String → Option StationInfo)
    (line_code station_code : HexCodeInput) : Option StationInfo :=
  tbl (normalize_hex_code line_code) (normalize_hex_code station_code)

/-! ## `auth_client.py` — `FelicaRemoteClient`

The remote authority is modelled as a script: a list of decoded JSON
response bodies, one consumed per POST.  An exhausted script plays the role
of an unreachable server (the transport error that `_KeepAliveHTTPClient`
surfaces after its single retry).  The card transport is an oracle from
frame bytes and timeout to response bytes.  Timeouts are rationals (the
Python floats carry no arithmetic here, only plumbing). -/

/-- The `error` object of a response body: `{code?, message?}`. -/
structure ErrorInfo where
  code : Option Nat
  message : Option String
deriving DecidableEq

/-- The `command` object of a response body: `{frame, timeout?}` with the
frame still hex-encoded. -/
structure CommandInfo where
  frame : Option String
  timeout : Option Rat
deriving DecidableEq

/-- A decoded JSON response body from the authority, with the fields the
client reads. -/
structure AuthorityResponse where
  error : Option ErrorInfo
  step : Option String
  command : Option CommandInfo
  result : Option (List (String × String))
  response : Option String
  session_id : Option String
deriving DecidableEq

/-- Source `_CommandEnvelope` with the frame already decoded to bytes. -/
structure CommandEnvelope where
  frame : List Nat
  timeout : Option Rat
deriving DecidableEq

/-- The exceptions the client can surface: `FelicaRemoteClientError`,
`tt3.Type3TagCommandError` (a card error carrying the numeric code), and an
uncaught `ValueError` from `bytes.fromhex`. -/
inductive ClientError where
  | remote (msg : String)
  | card (code : Nat)
  | valueErr (msg : String)
deriving DecidableEq

/-- The mutable state of `FelicaRemoteClient` that the protocols touch. -/
structure ClientState where
  session_id : Option String
  authenticated : Bool
  idm : List Nat
  pmm : List Nat
deriving DecidableEq

/-- The POST bodies the client sends, in order (`requests.length` is the
number of network calls made). -/
inductive AuthRequest where
  | start (session_id : Option String) (idm pmm : List Nat)
      (system_code : Nat) (areas services : List Nat)
  | cardResponse (session_id : Option String) (card_response : List Nat)
  | exchangeStart (session_id : Option String) (cmd_code : Nat)
      (payload : List Nat) (timeout : Option Rat)
deriving DecidableEq

/-- Outcome of a protocol run: the returned value or raised exception, the
final client state, the POST bodies sent, and the card exchanges performed
(frame with effective timeout). -/
structure ProtoResult (α : Type) where
  outcome : Except ClientError α
  state : ClientState
  requests : List AuthRequest
  cardCalls : List (List Nat × Rat)

/-- The error classification `_post` applies to a response body carrying an
`error` object (`code` present ⇒ card error, else client error with the
supplied or default message). -/
def post_decode (r : AuthorityResponse) : Except ClientError AuthorityResponse :=
  match r.error with
  | some e =>
    match e.code with
    | some c => .error (.card c)
    | none => .error (.remote (e.message.getD "server reported an error"))
  | none => .ok r

/-- Source `FelicaRemoteClient._update_session_id`: adopt the response's session id
when it is present and truthy (non-empty), otherwise keep the current one. -/
def update_session_id (st : ClientState) (r : AuthorityResponse) : ClientState :=
  match r.session_id with
  | some s => if s ≠ "" then { st with session_id := some s } else st
  | none => st

/-- Source `FelicaRemoteClient._extract_command`. -/
def extract_command (r : AuthorityResponse) : Except ClientError CommandEnvelope :=
  match r.command with
  | none => .error (.remote "missing command data in response")
  | some ci =>
    match ci.frame with
    | none => .error (.remote "missing command data in response")
    | some frame_hex =>
      match bytesFromHex frame_hex with
      | none => .error (.remote "invalid command frame encoding")
      | some frame => .ok { frame := frame, timeout := ci.timeout }

/-- The `while True` loop of `mutual_authentication`, entered with the
already-decoded current response (whose session id has been adopted). -/
def ma_loop (card : List Nat → Rat → List Nat) (default_exchange_timeout : Rat)
    (resp : AuthorityResponse) (st : ClientState)
    (script : List AuthorityResponse) : ProtoResult (List (String × String)) :=
    if resp.step = some "auth1" ∨ resp.step = some "auth2" then
      match extract_command resp with
      | .error e => ⟨.error e, st, [], []⟩
      | .ok cmd =>
        let tmo := cmd.timeout.getD default_exchange_timeout
        let card_response := card cmd.frame tmo
        let req := AuthRequest.cardResponse st.session_id card_response
        match script with
        | [] => ⟨.error (.remote "failed to reach server"), st, [req],
            [(cmd.frame, tmo)]⟩
        | r :: rest =>
          match post_decode r with
          | .error e => ⟨.error e, st, [req], [(cmd.frame, tmo)]⟩
          | .ok resp2 =>
            let st2 := update_session_id st resp2
            let res := ma_loop card default_exchange_timeout resp2 st2 rest
            ⟨res.outcome, res.state, req :: res.requests,
              (cmd.frame, tmo) :: res.cardCalls⟩
    else if resp.step = some "complete" then
      ⟨.ok (resp.result.getD []), { st with authenticated := true }, [], []⟩
    else
      ⟨.error (.remote "unexpected server response"), st, [], []⟩

/-- Source `FelicaRemoteClient.mutual_authentication`. -/
def mutual_authentication (card : List Nat → Rat → List Nat)
    (default_exchange_timeout : Rat) (script : List AuthorityResponse)
    (st : ClientState) (system_code : Nat) (areas services : List Nat) :
    ProtoResult (List (String × String)) :=
  let req0 := AuthRequest.start st.session_id st.idm st.pmm system_code areas services
  match script with
  | [] => ⟨.error (.remote "failed to reach server"), st, [req0], []⟩
  | r :: rest =>
    match post_decode r with
    | .error e => ⟨.error e, st, [req0], []⟩
    | .ok resp =>
      let st1 := update_session_id st resp
      let res := ma_loop card default_exchange_timeout resp st1 rest
      ⟨res.outcome, res.state, req0 :: res.requests, res.cardCalls⟩

/-- Source `FelicaRemoteClient.encryption_exchange`. -/
def encryption_exchange (card : List Nat → Rat → List Nat)
    (default_exchange_timeout : Rat) (script : List AuthorityResponse)
    (st : ClientState) (cmd_code : Nat) (payload : List Nat)
    (timeout : Option Rat) : ProtoResult (List Nat) :=
  if ¬ st.authenticated then
    ⟨.error (.remote "mutual authentication must be completed first"), st, [], []⟩
  else
    let req0 := AuthRequest.exchangeStart st.session_id cmd_code payload timeout
    match script with
    | [] => ⟨.error (.remote "failed to reach server"), st, [req0], []⟩
    | r :: rest =>
      match post_decode r with
      | .error e => ⟨.error e, st, [req0], []⟩
      | .ok resp =>
        let st1 := update_session_id st resp
        match extract_command resp with
        | .error e => ⟨.error e, st1, [req0], []⟩
        | .ok cmd =>
          let tmo := cmd.timeout.getD default_exchange_timeout
          let card_response := card cmd.frame tmo
          let req1 := AuthRequest.cardResponse st1.session_id card_response
          match rest with
          | [] => ⟨.error (.remote "failed to reach server"), st1, [req0, req1],
              [(cmd.frame, tmo)]⟩
          | r2 :: _ =>
            match post_decode r2 with
            | .error e => ⟨.error e, st1, [req0, req1], [(cmd.frame, tmo)]⟩
            | .ok final_response =>
              let st2 := update_session_id st1 final_response
              match final_response.response with
              | none => ⟨.error (.remote "unexpected server response"),
                  st2, [req0, req1], [(cmd.frame, tmo)]⟩
              | some response_hex =>
                match bytesFromHex response_hex with
                | none => ⟨.error (.valueErr "non-hexadecimal number found in fromhex() arg"),
                    st2, [req0, req1], [(cmd.frame, tmo)]⟩
                | some bs => ⟨.ok bs, st2, [req0, req1], [(cmd.frame, tmo)]⟩

/-- Source `FelicaRemoteClient.reset`: adopt a new card identity, clear the
authenticated flag, keep the channel. -/
def client_reset (st : ClientState) (idm pmm : List Nat)
    (session_id : Option String) : ClientState :=
  { st with
    idm := idm
    pmm := pmm
    session_id := session_id
    authenticated := false }

/-! ## Fixtures for witness theorems -/

/-- A card image whose every block is sixteen `1` bytes. -/
def constCard : Nat → Nat → List Nat := fun _ _ => List.replicate 16 1

/-- A fixed reader-oracle response: status `00 00`, one block of sixteen `7`s. -/
def exchFixture : Nat → List Nat → List Nat :=
  fun _ _ => 0 :: 0 :: 1 :: List.replicate 16 7

/-- An authority response carrying a command envelope and a session id. -/
def respFixture1 : AuthorityResponse :=
  { error := none
    step := some "auth1"
    command := some { frame := some "0a", timeout := none }
    result := none
    response := none
    session_id := some "s1" }

/-- An authority completion response carrying a payload and a session id. -/
def respFixture2 : AuthorityResponse :=
  { error := none
    step := some "complete"
    command := none
    result := none
    response := some "ff"
    session_id := some "s2" }

/-- An authenticated client state. -/
def stFixture : ClientState :=
  { session_id := some "s0", authenticated := true, idm := [1], pmm := [2] }

/-! ## Helper lemmas -/

theorem and_63_eq_mod (x : Nat) : x &&& 63 = x % 64 := by
  have h := Nat.and_pow_two_sub_one_eq_mod x 6
  norm_num at h
  exact h

theorem and_15_eq_mod (x : Nat) : x &&& 15 = x % 16 := by
  have h := Nat.and_pow_two_sub_one_eq_mod x 4
  norm_num at h
  exact h

theorem and_31_eq_mod (x : Nat) : x &&& 31 = x % 32 := by
  have h := Nat.and_pow_two_sub_one_eq_mod x 5
  norm_num at h
  exact h

theorem and_255_eq_mod (x : Nat) : x &&& 255 = x % 256 := by
  have h := Nat.and_pow_two_sub_one_eq_mod x 8
  norm_num at h
  exact h

theorem and_127_eq_mod (x : Nat) : x &&& 127 = x % 128 := by
  have h := Nat.and_pow_two_sub_one_eq_mod x 7
  norm_num at h
  exact h

theorem lor128_eq_add (t : Nat) (h : t < 128) : 128 ||| t = 128 + t := by
  have h2 := Nat.mul_add_lt_is_or (i := 7) (b := t) (by norm_num; omega) 1
  norm_num at h2
  omega

theorem lor128_and_127 (t : Nat) (h : t < 16) : (128 ||| t) &&& 127 = t := by
  rw [lor128_eq_add t (by omega), and_127_eq_mod]
  omega

/-- The encoder `date_to_int` is plain positional arithmetic when the fields are in
range (the low bit groups do not overlap). -/
theorem date_to_int_arith (y m d : Nat) (hm : m < 16) (hd : d < 32) :
    date_to_int y m d = y * 512 + m * 32 + d := by
  unfold date_to_int
  rw [Nat.shiftLeft_eq, Nat.shiftLeft_eq]
  have h1 : y * 2 ^ 9 ||| m * 2 ^ 5 = y * 2 ^ 9 + m * 2 ^ 5 := by
    rw [Nat.mul_comm y]
    refine (Nat.mul_add_lt_is_or ?_ y).symm
    norm_num
    omega
  rw [h1]
  have h2 : y * 2 ^ 9 + m * 2 ^ 5 = 2 ^ 5 * (y * 16 + m) := by ring
  rw [h2]
  have h3 : 2 ^ 5 * (y * 16 + m) ||| d = 2 ^ 5 * (y * 16 + m) + d := by
    refine (Nat.mul_add_lt_is_or ?_ _).symm
    norm_num
    omega
  rw [h3]
  ring

/-! ## C8 — packed-date round trip -/

/-- C8: for all `year ∈ [0,63]`, `month ∈ [0,15]`, `day ∈ [0,31]`, packing
the triple as `(year << 9) | (month << 5) | day` and decoding it with
`int_to_date` recovers exactly `(year % 100, month, day)`. -/
theorem c8_packed_date_roundtrip (y m d : Nat)
    (hy : y < 64) (hm : m < 16) (hd : d < 32) :
    int_to_date (date_to_int y m d) = (y % 100, m, d) := by
  rw [date_to_int_arith y m d hm hd]
  unfold int_to_date
  rw [Nat.shiftRight_eq_div_pow, Nat.shiftRight_eq_div_pow]
  have e1 : (y * 512 + m * 32 + d) / 2 ^ 5 &&& 0x0F
      = (y * 512 + m * 32 + d) / 2 ^ 5 % 16 := and_15_eq_mod _
  have e2 : y * 512 + m * 32 + d &&& 0x1F = (y * 512 + m * 32 + d) % 32 :=
    and_31_eq_mod _
  rw [e1, e2]
  norm_num
  refine ⟨?_, ?_, ?_⟩ <;> omega

theorem c8_packed_date_roundtrip_witness :
    int_to_date (date_to_int 21 12 31) = (21 % 100, 12, 31) :=
  c8_packed_date_roundtrip 21 12 31 (by norm_num) (by norm_num) (by norm_num)

/-! ## C5 — transaction-history sentinel -/

theorem read_transaction_history_go_eq (i : Nat) (bs : List (List Nat)) :
    read_transaction_history_go i bs =
      ((bs.takeWhile fun b => b.getD 0 0 != 0).enumFrom i).map
        fun p => decode_transaction_entry p.1 p.2 := by
  induction bs generalizing i with
  | nil => rfl
  | cons b rest ih =>
    simp only [read_transaction_history_go, List.takeWhile_cons,
      List.getD_eq_getElem?_getD]
    by_cases h : b[0]?.getD 0 = 0
    · simp [h]
    · simp [h, List.enumFrom, ih, List.getD_eq_getElem?_getD]

/-- C5: the transaction-history decoder produces exactly one entry per block
strictly before the first block whose recorded-by byte (byte 0) is zero, and
none at or after it — the entries are precisely the enumerated blocks of the
longest zero-free prefix.  In particular, when no block has a zero
recorded-by byte, every block (all 20 in a full read) is decoded. -/
theorem c5_history_stops_at_sentinel (blocks : List (List Nat)) :
    read_transaction_history blocks =
      ((blocks.takeWhile fun b => b.getD 0 0 != 0).enum).map
        fun p => decode_transaction_entry p.1 p.2 := by
  unfold read_transaction_history List.enum
  exact read_transaction_history_go_eq 0 blocks

theorem c5_history_stops_at_sentinel_witness :
    read_transaction_history [[5], [0], [7]] =
      (([[5], [0], [7]].takeWhile fun b => b.getD 0 0 != 0).enum).map
        (fun p => decode_transaction_entry p.1 p.2) :=
  c5_history_stops_at_sentinel [[5], [0], [7]]

/-! ## C9 — hex-code normalisation is not canonical -/

/-- C9: `_normalize_hex_code` renders an integer `c ≤ 15` as a single
unpadded hex digit, while the two-character zero-padded string form
normalises to itself; the two disagree, so `get_station_info` called with
integer codes consults the unpadded keys, missing a table keyed by
zero-padded hex strings. -/
theorem c9_normalization_not_canonical :
    (∀ c, c ≤ 15 →
      normalize_hex_code (.int c) = String.mk [hexDigitU c] ∧
      normalize_hex_code (.str (byteToHexU c)) = byteToHexU c ∧
      String.mk [hexDigitU c] ≠ byteToHexU c) ∧
    (∀ tbl l s, get_station_info tbl (.int l) (.int s) =
      tbl (natToHexUpper l) (natToHexUpper s)) :=
  ⟨by decide, fun _ _ _ => rfl⟩

theorem c9_normalization_not_canonical_witness :
    normalize_hex_code (.int 12) = String.mk [hexDigitU 12] ∧
    normalize_hex_code (.str (byteToHexU 12)) = byteToHexU 12 ∧
    String.mk [hexDigitU 12] ≠ byteToHexU 12 :=
  c9_normalization_not_canonical.1 12 (by norm_num)

/-! ## C4 — encrypted exchange requires authentication -/

/-- C4: when the client is not authenticated, `encryption_exchange` fails
immediately with a client error, sends no POST, performs no card exchange,
and leaves the client state (session id and authenticated flag) unchanged. -/
theorem c4_exchange_requires_auth (card : List Nat → Rat → List Nat)
    (dft : Rat) (script : List AuthorityResponse) (st : ClientState)
    (cmd_code : Nat) (payload : List Nat) (timeout : Option Rat)
    (h : st.authenticated = false) :
    encryption_exchange card dft script st cmd_code payload timeout =
      ⟨.error (.remote "mutual authentication must be completed first"),
        st, [], []⟩ := by
  unfold encryption_exchange
  rw [h]
  simp

theorem c4_exchange_requires_auth_witness :
    encryption_exchange (fun _ _ => []) 1 [respFixture1]
        { session_id := some "s0", authenticated := false, idm := [], pmm := [] }
        0x14 [] none =
      ⟨.error (.remote "mutual authentication must be completed first"),
        { session_id := some "s0", authenticated := false, idm := [], pmm := [] },
        [], []⟩ :=
  c4_exchange_requires_auth _ _ _ _ _ _ _ rfl

/-! ## C3 — IDi rendering

The spec claims the year of the embedded date is `value >> 9` (the shared
packed-date convention); the source additionally masks it to six bits with
`& 0x3F` before the `% 100` reduction.  The two disagree whenever byte 4 is
`≥ 0x80` (so that `value >> 9 ≥ 64`). -/

theorem c3_counterexample_idi_year_mask :
    idi_bytes_to_str [0, 0, 0, 0, 0x80, 0, 0, 0] = .ok "0000000000000000000" ∧
    idi_bytes_to_str_spec [0, 0, 0, 0, 0x80, 0, 0, 0] = .ok "0000000064000000000" ∧
    idi_bytes_to_str [0, 0, 0, 0, 0x80, 0, 0, 0] ≠
      idi_bytes_to_str_spec [0, 0, 0, 0, 0x80, 0, 0, 0] := by
  refine ⟨rfl, rfl, ?_⟩
  intro h
  rw [show idi_bytes_to_str [0, 0, 0, 0, 0x80, 0, 0, 0]
        = .ok "0000000000000000000" from rfl,
      show idi_bytes_to_str_spec [0, 0, 0, 0, 0x80, 0, 0, 0]
        = .ok "0000000064000000000" from rfl] at h
  injection h with h2
  exact absurd h2 (by decide)

/-- C3 (amended): for every 8-byte identifier, `idi_bytes_to_str` renders
the first 4 bytes as hex, then the date of bytes 4–5 with
`year = (value >> 9) % 64` (six-bit mask — this is where the original claim,
which took `year = value >> 9`, fails), `month = (value >> 5) % 16`,
`day = value % 32`, each zero-padded to 2 digits with the year further
reduced modulo 100, then bytes 6–7 big-endian zero-padded to 5 digits. -/
theorem c3_idi_rendering_amended (b : List Nat) (h : b.length = 8) :
    idi_bytes_to_str b = .ok (
      String.join ((b.take 4).map byteToHexU) ++
      ((decPad 2 (((((b.getD 4 0) <<< 8 ||| b.getD 5 0) >>> 9) % 64) % 100) ++
        decPad 2 ((((b.getD 4 0) <<< 8 ||| b.getD 5 0) >>> 5) % 16) ++
        decPad 2 (((b.getD 4 0) <<< 8 ||| b.getD 5 0) % 32)) ++
       decPad 5 (from_bytes_be ((b.drop 6).take 2)))) := by
  unfold idi_bytes_to_str
  rw [if_neg (by omega)]
  simp only [and_63_eq_mod, and_15_eq_mod, and_31_eq_mod, String.append_assoc]

theorem c3_idi_rendering_amended_witness :
    idi_bytes_to_str [0, 1, 2, 3, 0x21, 0x45, 0, 7] = .ok (
      String.join (([0, 1, 2, 3, 0x21, 0x45, 0, 7].take 4).map byteToHexU) ++
      ((decPad 2 ((((([(0 : Nat), 1, 2, 3, 0x21, 0x45, 0, 7].getD 4 0) <<< 8 |||
            [0, 1, 2, 3, 0x21, 0x45, 0, 7].getD 5 0) >>> 9) % 64) % 100) ++
        decPad 2 (((([(0 : Nat), 1, 2, 3, 0x21, 0x45, 0, 7].getD 4 0) <<< 8 |||
            [0, 1, 2, 3, 0x21, 0x45, 0, 7].getD 5 0) >>> 5) % 16) ++
        decPad 2 ((([(0 : Nat), 1, 2, 3, 0x21, 0x45, 0, 7].getD 4 0) <<< 8 |||
            [0, 1, 2, 3, 0x21, 0x45, 0, 7].getD 5 0) % 32)) ++
       decPad 5 (from_bytes_be (([(0 : Nat), 1, 2, 3, 0x21, 0x45, 0, 7].drop 6).take 2)))) :=
  c3_idi_rendering_amended [0, 1, 2, 3, 0x21, 0x45, 0, 7] rfl

/-! ## C7 — wire-element encode/decode -/

/-- C7: for `serviceIndex ∈ 0..15` and `blockIndex ∈ 0..255` the 2-byte wire
encoding `(0x80 | serviceIndex, blockIndex & 0xFF)` decodes back to the same
pair; for a pair outside those ranges the encoder raises a validation error
before producing any wire bytes. -/
theorem c7_wire_element_roundtrip (s b : Int) :
    (0 ≤ s → s < 16 → 0 ≤ b → b < 256 →
      elements_to_bytes [(s, b)] = .ok [0x80 ||| s.toNat, b.toNat &&& 0xFF] ∧
      wire_element_decode (0x80 ||| s.toNat) (b.toNat &&& 0xFF) =
        (s.toNat, b.toNat)) ∧
    (¬ (0 ≤ s ∧ s < 16 ∧ 0 ≤ b ∧ b < 256) →
      ∃ msg, elements_to_bytes [(s, b)] = .error (.valueError msg)) := by
  constructor
  · intro h1 h2 h3 h4
    have hs : s.toNat < 16 := by omega
    have hb : b.toNat < 256 := by omega
    constructor
    · unfold elements_to_bytes
      rw [if_neg (by omega), if_neg (by omega)]
      rfl
    · unfold wire_element_decode
      rw [lor128_and_127 _ hs, and_255_eq_mod, and_255_eq_mod]
      have hb2 : b.toNat % 256 % 256 = b.toNat := by omega
      rw [hb2]
  · intro h
    unfold elements_to_bytes
    by_cases hs : 0 ≤ s ∧ s < 16
    · rw [if_neg (by omega)]
      rw [if_pos (by omega)]
      exact ⟨_, rfl⟩
    · rw [if_pos hs]
      exact ⟨_, rfl⟩

theorem c7_wire_element_roundtrip_witness :
    elements_to_bytes [((4 : Int), (200 : Int))] =
      .ok [0x80 ||| (4 : Int).toNat, (200 : Int).toNat &&& 0xFF] ∧
    wire_element_decode (0x80 ||| (4 : Int).toNat) ((200 : Int).toNat &&& 0xFF) =
      ((4 : Int).toNat, (200 : Int).toNat) :=
  (c7_wire_element_roundtrip 4 200).1 (by norm_num) (by norm_num)
    (by norm_num) (by norm_num)

/-! ## C10 — completion without a result payload -/

/-- C10: a mutual-authentication response whose `step` is `"complete"` but
which carries no `result` field does not fail: the result defaults to the
empty map, the client becomes authenticated.  Stated both for the protocol
loop at an arbitrary step and for a run whose first response completes. -/
theorem c10_complete_without_result (card : List Nat → Rat → List Nat)
    (dft : Rat) (rest : List AuthorityResponse) (st : ClientState)
    (sys : Nat) (areas services : List Nat) (r : AuthorityResponse)
    (h1 : r.error = none) (h2 : r.step = some "complete")
    (h3 : r.result = none) :
    (∀ st', ma_loop card dft r st' rest =
      ⟨.ok [], { st' with authenticated := true }, [], []⟩) ∧
    (mutual_authentication card dft (r :: rest) st sys areas services).outcome
      = .ok [] ∧
    (mutual_authentication card dft (r :: rest) st sys areas
      services).state.authenticated = true := by
  have hml : ∀ st', ma_loop card dft r st' rest =
      ⟨.ok [], { st' with authenticated := true }, [], []⟩ := by
    intro st'
    unfold ma_loop
    rw [h2]
    rw [if_neg (by decide), if_pos rfl, h3]
    rfl
  refine ⟨hml, ?_, ?_⟩ <;>
    · unfold mutual_authentication
      simp only [post_decode, h1]
      rw [hml]

theorem c10_complete_without_result_witness :
    (mutual_authentication (fun _ _ => []) 1
      [{ respFixture2 with response := none }] stFixture 3 [] []).outcome
      = .ok [] ∧
    (mutual_authentication (fun _ _ => []) 1
      [{ respFixture2 with response := none }] stFixture 3 [] []).state.authenticated
      = true :=
  ⟨(c10_complete_without_result _ _ _ _ _ _ _ _ rfl rfl rfl).2.1,
   (c10_complete_without_result _ _ _ _ _ _ _ _ rfl rfl rfl).2.2⟩

/-! ## C6 — session-id rebinding on every response -/

/-- C6: `_update_session_id` adopts a response's non-empty session id,
keeps the previous one when the field is absent or empty (never clears it),
and touches nothing else; and both protocols thread it through every step:
a two-post `encryption_exchange` run ends with the state rebound by both
responses in order, as does a `mutual_authentication` run that performs an
auth round and then completes. -/
theorem c6_session_id_rebinding :
    (∀ st r s, r.session_id = some s → s ≠ "" →
      (update_session_id st r).session_id = some s) ∧
    (∀ st r, r.session_id = none ∨ r.session_id = some "" →
      (update_session_id st r).session_id = st.session_id) ∧
    (∀ st r, (update_session_id st r).authenticated = st.authenticated) ∧
    (∀ card dft r1 r2 rest st cc pl tm, st.authenticated = true →
      r1.error = none → r2.error = none →
      (∃ env, extract_command r1 = .ok env) →
      (encryption_exchange card dft (r1 :: r2 :: rest) st cc pl
          tm).state.session_id =
        (update_session_id (update_session_id st r1) r2).session_id) ∧
    (∀ card dft r1 r2 rest st sys areas services, r1.error = none →
      (r1.step = some "auth1" ∨ r1.step = some "auth2") →
      (∃ env, extract_command r1 = .ok env) →
      r2.error = none → r2.step = some "complete" →
      (mutual_authentication card dft (r1 :: r2 :: rest) st sys areas
          services).state.session_id =
        (update_session_id (update_session_id st r1) r2).session_id) := by
  refine ⟨?_, ?_, ?_, ?_, ?_⟩
  · intro st r s hs hne
    unfold update_session_id
    rw [hs]
    simp [hne]
  · intro st r h
    unfold update_session_id
    rcases h with h | h <;> simp [h]
  · intro st r
    unfold update_session_id
    rcases hr : r.session_id with _ | s
    · rfl
    · by_cases he : s = "" <;> simp [he]
  · intro card dft r1 r2 rest st cc pl tm hauth h1 h2 henv
    obtain ⟨env, henv⟩ := henv
    unfold encryption_exchange
    rw [if_neg (by simp [hauth])]
    simp only [post_decode, h1, h2, henv]
    rcases hresp : r2.response with _ | rh
    · rfl
    · rcases hbs : bytesFromHex rh with _ | bs <;> simp [hbs]
  · intro card dft r1 r2 rest st sys areas services h1 hstep henv h2 h2step
    obtain ⟨env, henv⟩ := henv
    unfold mutual_authentication
    simp only [post_decode, h1]
    unfold ma_loop
    rw [if_pos hstep, henv]
    simp only [post_decode, h2]
    unfold ma_loop
    rw [h2step]
    rw [if_neg (by decide), if_pos rfl]

theorem c6_session_id_rebinding_witness :
    (encryption_exchange (fun _ _ => []) 1 [respFixture1, respFixture2]
        stFixture 0x14 [] none).state.session_id =
      (update_session_id (update_session_id stFixture respFixture1)
        respFixture2).session_id :=
  c6_session_id_rebinding.2.2.2.1 _ _ _ _ [] _ _ _ _ rfl rfl rfl
    ⟨{ frame := [10], timeout := none }, rfl⟩

/-! ## C1 / C2 — chunked block reads -/

theorem elements_to_bytes_ok (es : List (Int × Int))
    (h : ∀ e ∈ es, 0 ≤ e.1 ∧ e.1 < 16 ∧ 0 ≤ e.2 ∧ e.2 < 256) :
    elements_to_bytes es =
      .ok (es.flatMap fun e => [0x80 ||| e.1.toNat, e.2.toNat &&& 0xFF]) := by
  induction es with
  | nil => rfl
  | cons e rest ih =>
    obtain ⟨s, b⟩ := e
    obtain ⟨h1, h2, h3, h4⟩ := h (s, b) (List.mem_cons_self _ _)
    unfold elements_to_bytes
    rw [if_neg (by omega), if_neg (by omega)]
    rw [ih fun x hx => h x (List.mem_cons_of_mem _ hx)]
    rfl

theorem parse_elements_encode (es : List (Int × Int))
    (h : ∀ e ∈ es, 0 ≤ e.1 ∧ e.1 < 16 ∧ 0 ≤ e.2 ∧ e.2 < 256) :
    parse_elements (es.flatMap fun e => [0x80 ||| e.1.toNat, e.2.toNat &&& 0xFF]) =
      es.map fun e => (e.1.toNat, e.2.toNat) := by
  induction es with
  | nil => rfl
  | cons e rest ih =>
    obtain ⟨h1, h2, h3, h4⟩ := h e (List.mem_cons_self _ _)
    have hs : e.1.toNat < 16 := by omega
    have hb : e.2.toNat < 256 := by omega
    simp only [List.flatMap_cons, List.cons_append, List.map_cons]
    rw [List.nil_append]
    show ((0x80 ||| e.1.toNat) &&& 0x7F, e.2.toNat &&& 0xFF) :: parse_elements _ = _
    rw [lor128_and_127 _ hs, and_255_eq_mod, Nat.mod_eq_of_lt hb,
      ih fun x hx => h x (List.mem_cons_of_mem _ hx)]

theorem flatten_length_16 (bs : List (List Nat)) (h : ∀ b ∈ bs, b.length = 16) :
    bs.flatten.length = bs.length * 16 := by
  induction bs with
  | nil => rfl
  | cons b rest ih =>
    have hb := h b (List.mem_cons_self _ _)
    have := ih fun x hx => h x (List.mem_cons_of_mem _ hx)
    simp only [List.flatten_cons, List.length_append, List.length_cons]
    omega

theorem slice_flatten (bs : List (List Nat)) (h : ∀ b ∈ bs, b.length = 16) :
    (List.range bs.length).map (fun i => (bs.flatten.drop (i * 16)).take 16) = bs := by
  induction bs with
  | nil => rfl
  | cons b rest ih =>
    have hb := h b (List.mem_cons_self _ _)
    have hr : ∀ x ∈ rest, x.length = 16 := fun x hx => h x (List.mem_cons_of_mem _ hx)
    simp only [List.length_cons, List.range_succ_eq_map, List.map_cons,
      List.map_map, List.flatten_cons]
    have head : ((b ++ rest.flatten).drop (0 * 16)).take 16 = b := by
      rw [Nat.zero_mul, List.drop_zero, List.take_left' hb]
    have tail : List.map ((fun i => ((b ++ rest.flatten).drop (i * 16)).take 16)
        ∘ Nat.succ) (List.range rest.length) = rest := by
      refine (List.map_congr_left ?_).trans (ih hr)
      intro i hi
      simp only [Function.comp_apply]
      have hstep : Nat.succ i * 16 = b.length + i * 16 := by rw [hb]; omega
      rw [hstep, ← List.drop_drop, List.drop_left]
    rw [head, tail]

/-- Source `_read_elements` after a successful address encoding is exactly one
exchange followed by response validation. -/
theorem read_elements_eq (exch : Nat → List Nat → List Nat)
    (elements : List (Int × Int)) (encoded : List Nat)
    (henc : elements_to_bytes elements = .ok encoded) :
    read_elements exch elements =
      (validate_read_response elements.length
        (exch READ_COMMAND_CODE (elements.length :: encoded)), 1) := by
  unfold read_elements
  rw [henc]

/-- A well-formed success response validates to its 16-byte slices. -/
theorem validate_read_response_ok (bs : List (List Nat))
    (h : ∀ b ∈ bs, b.length = 16) :
    validate_read_response bs.length (0 :: 0 :: bs.length :: bs.flatten) =
      .ok bs := by
  have hflat := flatten_length_16 bs h
  unfold validate_read_response
  rw [if_neg (by simp)]
  rw [if_neg (by simp [List.getD])]
  rw [if_neg (by simp [List.getD])]
  rw [if_neg (by simp only [List.drop_succ_cons, List.drop_zero, hflat,
    DATA_BLOCK_SIZE]; omega)]
  simp only [List.drop_succ_cons, List.drop_zero, DATA_BLOCK_SIZE]
  rw [List.take_of_length_le (by omega)]
  rw [slice_flatten bs h]

theorem read_elements_good (card : Nat → Nat → List Nat)
    (hcard : ∀ s b, (card s b).length = 16) (si : Int)
    (hsi : 0 ≤ si ∧ si < 16) (chunk : List Int)
    (hb : ∀ b ∈ chunk, 0 ≤ b ∧ b < 256) :
    read_elements (good_exch card) (chunk.map fun bi => (si, bi)) =
      (.ok (chunk.map fun bi => card si.toNat bi.toNat), 1) := by
  have hes : ∀ e ∈ chunk.map fun bi => ((si : Int), bi),
      0 ≤ e.1 ∧ e.1 < 16 ∧ 0 ≤ e.2 ∧ e.2 < 256 := by
    intro e he
    simp only [List.mem_map] at he
    obtain ⟨bi, hbi, rfl⟩ := he
    exact ⟨hsi.1, hsi.2, (hb bi hbi).1, (hb bi hbi).2⟩
  rw [read_elements_eq _ _ _ (elements_to_bytes_ok _ hes)]
  have hgood : good_exch card READ_COMMAND_CODE
      ((chunk.map fun bi => ((si : Int), bi)).length ::
        ((chunk.map fun bi => ((si : Int), bi)).flatMap fun e =>
          [0x80 ||| e.1.toNat, e.2.toNat &&& 0xFF])) =
      0 :: 0 :: (chunk.map fun bi => ((si : Int), bi)).length ::
        (chunk.map fun bi => card si.toNat bi.toNat).flatten := by
    show 0 :: 0 :: _ :: _ = _
    rw [parse_elements_encode _ hes]
    simp only [List.map_map, Function.comp]
    rw [List.flatMap_def, List.map_map]
    rfl
  rw [hgood]
  have hlen : (chunk.map fun bi => ((si : Int), bi)).length =
      (chunk.map fun bi => card si.toNat bi.toNat).length := by
    simp
  rw [hlen]
  rw [validate_read_response_ok _ (by
    intro b hbm
    simp only [List.mem_map] at hbm
    obtain ⟨bi, hbi, rfl⟩ := hbm
    exact hcard _ _)]

theorem read_blocks_good_aux (card : Nat → Nat → List Nat)
    (hcard : ∀ s b, (card s b).length = 16) (si : Int)
    (hsi : 0 ≤ si ∧ si < 16) :
    ∀ n (idxs : List Int), idxs.length ≤ n → (∀ b ∈ idxs, 0 ≤ b ∧ b < 256) →
      read_blocks (good_exch card) si idxs =
        (.ok (idxs.map fun bi => card si.toNat bi.toNat),
          (idxs.length + 11) / 12) := by
  intro n
  induction n with
  | zero =>
    intro idxs hlen hb
    have : idxs = [] := List.length_eq_zero.mp (Nat.le_antisymm hlen (Nat.zero_le _))
    subst this
    simp [read_blocks]
  | succ n ih =>
    intro idxs hlen hb
    match idxs with
    | [] => simp [read_blocks]
    | idx :: rest =>
      rw [read_blocks]
      rw [read_elements_good card hcard si hsi ((idx :: rest).take MAX_BLOCKS_PER_REQUEST)
        fun b hbm => hb b (List.mem_of_mem_take hbm)]
      rw [ih ((idx :: rest).drop MAX_BLOCKS_PER_REQUEST)
        (by simp only [List.length_drop, List.length_cons, MAX_BLOCKS_PER_REQUEST] at hlen ⊢; omega)
        fun b hbm => hb b (List.mem_of_mem_drop hbm)]
      show (Except.ok _, _) = _
      rw [← List.map_append, List.take_append_drop]
      have hcount : 1 + (((idx :: rest).drop MAX_BLOCKS_PER_REQUEST).length + 11) / 12
          = ((idx :: rest).length + 11) / 12 := by
        simp only [List.length_drop, List.length_cons, MAX_BLOCKS_PER_REQUEST]
        omega
      rw [hcount]

/-- C1: for any service index in range and any list of block indices in
range, `read_blocks` against a well-behaved server returns exactly one
16-byte block per requested index, in input order, and performs exactly
`⌈N/12⌉` `encryption_exchange` calls (`(N + 11) / 12` in `Nat` division;
zero calls and an empty result when `N = 0`). -/
theorem c1_read_blocks_chunked (card : Nat → Nat → List Nat)
    (hcard : ∀ s b, (card s b).length = 16) (si : Int)
    (hsi : 0 ≤ si ∧ si < 16) (idxs : List Int)
    (hb : ∀ b ∈ idxs, 0 ≤ b ∧ b < 256) :
    read_blocks (good_exch card) si idxs =
      (.ok (idxs.map fun bi => card si.toNat bi.toNat),
        (idxs.length + 11) / 12) :=
  read_blocks_good_aux card hcard si hsi idxs.length idxs Nat.le.refl hb

theorem c1_read_blocks_chunked_witness :
    read_blocks (good_exch constCard) 4 [0, 1, 2] =
      (.ok ([(0 : Int), 1, 2].map fun bi => constCard (4 : Int).toNat bi.toNat),
        ([(0 : Int), 1, 2].length + 11) / 12) :=
  c1_read_blocks_chunked constCard (fun _ _ => rfl) 4 (by norm_num) [0, 1, 2]
    (by decide)

/-- C2: `_read_elements` on a chunk of `k` requested elements, once the
request payload is built, validates the exchange response `r` as follows —
a malformed-response error when `r` is shorter than 3 bytes; a card error
carrying the status code `(r₀ << 8) | r₁` when the first status byte is
non-zero; a malformed-response error when the echoed block count differs
from `k` or fewer than `k·16` payload bytes remain (no partial blocks in
any error case); and otherwise exactly the `k` 16-byte slices of the bytes
after the header, in request order, ignoring any excess trailing bytes. -/
theorem c2_read_elements_validation (exch : Nat → List Nat → List Nat)
    (elements : List (Int × Int)) (encoded response : List Nat)
    (henc : elements_to_bytes elements = .ok encoded)
    (hresp : exch READ_COMMAND_CODE (elements.length :: encoded) = response) :
    (response.length < 3 →
      read_elements exch elements =
        (.error (.runtimeError "リモートサーバーからの応答が不正です。"), 1)) ∧
    (∀ f1 f2 bc rest, response = f1 :: f2 :: bc :: rest →
      (f1 ≠ 0 →
        read_elements exch elements =
          (.error (.cardError ((f1 <<< 8) ||| f2)), 1)) ∧
      (f1 = 0 → bc ≠ elements.length →
        read_elements exch elements =
          (.error (.runtimeError "取得したブロック数が一致しません。"), 1)) ∧
      (f1 = 0 → bc = elements.length → rest.length < elements.length * 16 →
        read_elements exch elements =
          (.error (.runtimeError "ブロックデータの長さが不正です。"), 1)) ∧
      (f1 = 0 → bc = elements.length → elements.length * 16 ≤ rest.length →
        read_elements exch elements =
          (.ok ((List.range elements.length).map fun i =>
            (rest.drop (i * 16)).take 16), 1))) := by
  have hre := read_elements_eq exch elements encoded henc
  rw [hresp] at hre
  constructor
  · intro hshort
    rw [hre]
    unfold validate_read_response
    rw [if_pos hshort]
  · intro f1 f2 bc rest hr
    subst hr
    refine ⟨?_, ?_, ?_, ?_⟩
    · intro hf1
      rw [hre]
      unfold validate_read_response
      rw [if_neg (by simp), if_pos (by simpa [List.getD] using hf1)]
      simp [List.getD]
    · intro hf1 hbc
      rw [hre]
      unfold validate_read_response
      rw [if_neg (by simp),
        if_neg (by simpa [List.getD] using hf1),
        if_pos (by simpa [List.getD] using hbc)]
    · intro hf1 hbc hlen
      rw [hre]
      unfold validate_read_response
      rw [if_neg (by simp),
        if_neg (by simpa [List.getD] using hf1),
        if_neg (by simpa [List.getD] using hbc)]
      rw [if_pos (by
        simp only [List.drop_succ_cons, List.drop_zero, DATA_BLOCK_SIZE]
        omega)]
    · intro hf1 hbc hlen
      rw [hre]
      unfold validate_read_response
      rw [if_neg (by simp),
        if_neg (by simpa [List.getD] using hf1),
        if_neg (by simpa [List.getD] using hbc)]
      rw [if_neg (by
        simp only [List.drop_succ_cons, List.drop_zero, DATA_BLOCK_SIZE]
        omega)]
      simp only [List.drop_succ_cons, List.drop_zero, DATA_BLOCK_SIZE]
      refine congrArg (fun x => (Except.ok x, 1)) ?_
      refine List.map_congr_left ?_
      intro i hi
      have hik : i < elements.length := List.mem_range.mp hi
      rw [List.drop_take, List.take_take,
        Nat.min_eq_left (by omega : 16 ≤ elements.length * 16 - i * 16)]

theorem c2_read_elements_validation_witness :
    read_elements exchFixture [((0 : Int), (0 : Int))] =
      (.ok ((List.range [((0 : Int), (0 : Int))].length).map fun i =>
        ((List.replicate 16 7).drop (i * 16)).take 16), 1) :=
  (((c2_read_elements_validation exchFixture [(0, 0)] [128, 0]
      (0 :: 0 :: 1 :: List.replicate 16 7) rfl rfl).2
    0 0 1 (List.replicate 16 7) rfl).2.2.2) rfl rfl (by norm_num)

end SuicaViewer
